import Mathlib

/-!
Verification development for the query/mutation translation engine of a
GraphQL-to-Cypher compiler (neo4j-style graphql library).

The development shallowly embeds the fragments of the source that the
checked properties are about:

* `createConnectAndParams` (src/unnamed/part_000): the connect-mutation
  compiler — its `createSubqueryContents` helper (optional match with
  where / `_on` type narrowing, authorization predicates, the MERGE vs
  CREATE duplication-policy choice, relationship-property SET,
  subscription event-metadata threading, post-condition `apoc.util.validate`
  emission) and its per-entry `reducer` fold.
* `getCustomResolverMeta` (src/unnamed/part_001): the one-time
  deprecation-warning fragment.
* The root-connection sort translation: the translate code itself is not
  among the staged source files, only its TCK tests (src/unnamed/part_002);
  it is modelled from the specification and marked as such.

JavaScript data (GraphQL input objects) is modelled by `JSValue`/`JSObj`
with JS truthiness and insertion-ordered keys; the emitted Cypher program
is modelled as a list of `Clause` values at the granularity the properties
need, together with an executable semantics for the relationship-write
clauses (`runProgram`) and an extraction of the primary data effect
(`dataEffect`).
-/

set_option linter.unusedVariables false

namespace NeoGQL

/-- JavaScript-like values appearing in GraphQL where/edge input objects. -/
inductive JSValue : Type where
  | nullV : JSValue
  | undef : JSValue
  | boolV : Bool → JSValue
  | numV : Int → JSValue
  | strV : String → JSValue
  | obj : List (String × JSValue) → JSValue

/-- A JS object: an ordered association list (JS objects preserve key
insertion order, and `Object.entries` iterates in that order). Keys are
unique in any object produced by a JS object literal or spread. -/
abbrev JSObj := List (String × JSValue)

/-- JS truthiness of a value. -/
def truthy : JSValue → Bool
  | .nullV => false
  | .undef => false
  | .boolV b => b
  | .numV n => n != 0
  | .strV s => s != ""
  | .obj _ => true

/-- Property access `o[k]`: the value at key `k`, `undefined` when absent. -/
def jsGet (o : JSObj) (k : String) : JSValue :=
  match o with
  | [] => .undef
  | (k1, v) :: rest => if k1 = k then v else jsGet rest k

/-- `Object.prototype.hasOwnProperty.call(o, k)`. -/
def hasOwn (o : JSObj) (k : String) : Bool :=
  match o with
  | [] => false
  | (k1, _) :: rest => if k1 = k then true else hasOwn rest k

/-- `{ ...o, [k]: v }`: an existing key keeps its position and gets the new
value, a new key is appended. -/
def objSet (o : JSObj) (k : String) (v : JSValue) : JSObj :=
  match o with
  | [] => [(k, v)]
  | (k1, v1) :: rest => if k1 = k then (k1, v) :: rest else (k1, v1) :: objSet rest k v

/-- `{ ...o, ...p }`: writes every pair of `p` over `o`, in order. -/
def objSpread (o p : JSObj) : JSObj :=
  p.foldl (fun acc kv => objSet acc kv.1 kv.2) o

/-- Coerces a value to an object; a non-object contributes no own
enumerable string keys here. -/
def asObj : JSValue → JSObj
  | .obj o => o
  | _ => []

/-- Optional-chained access `v?.[k]`. -/
def dot (v : JSValue) (k : String) : JSValue :=
  jsGet (asObj v) k

/-- The forbidden-access error constant (`AUTH_FORBIDDEN_ERROR` from the
library's constants module, which is not among the staged files; its exact
text is immaterial to every property below). -/
def AUTH_FORBIDDEN_ERROR : String := "@neo4j/graphql/FORBIDDEN"

/-- A schema node as `createConnectAndParams` consumes it: its name, whether
`node.auth` is set (it carries authorization rules), and its label string
(`relatedNode.getLabelString(context)`). -/
structure GQLNode where
  name : String
  auth : Bool
  labelString : String

/-- Predicates attached to the optional-match clause. `whereInput` stands
for the predicate `createWherePredicate` builds from a where input object;
`authPred` for an opaque predicate an authorization hook returned;
`validatePred` for `Cypher.apoc.ValidatePredicate` (raises the error when
the predicate fails); `andP` for `Cypher.and`. -/
inductive Pred : Type where
  | whereInput : JSObj → Pred
  | authPred : String → Pred
  | validatePred : Pred → String → Pred
  | andP : List Pred → Pred

/-- The emitted program, clause by clause, at the granularity the checked
properties need (part_000 builds the same sequence as a mix of
cypher-builder clauses and pushed strings). -/
inductive Clause : Type where
  /-- `OptionalMatch` of the related node: label, carry-over vars, where predicates. -/
  | optionalMatch : String → List String → List Pred → Clause
  /-- subscription-only `WITH ..., [] AS meta` (lines 85-87 / 234-236). -/
  | metaInit : Clause
  /-- `WITH collect(node) AS connectedNodes, collect(parent) AS parentNodes`. -/
  | withCollectNodes : Clause
  /-- `UNWIND connectedNodes ... UNWIND parentNodes ...`. -/
  | unwindNodes : Clause
  /-- unconditional `CREATE` of the relationship: source var, target var, type. -/
  | createRel : String → String → String → Clause
  /-- `MERGE` of the relationship pattern: source var, target var, type. -/
  | mergeRel : String → String → String → Clause
  /-- relationship-property `SET` from the `edge` input. -/
  | setRelProps : JSObj → Clause
  /-- subscription-only connect-event metadata `WITH` (from var, to var, type). -/
  | eventMetaWith : String → String → String → Clause
  /-- inner subquery `RETURN collect(meta) AS update_meta` (subscriptions). -/
  | innerReturnMeta : Clause
  /-- inner subquery `RETURN collect(*) AS _`. -/
  | innerReturnCount : Clause
  /-- subscription-only `WITH meta + update_meta ...`. -/
  | metaConcatWith : Clause
  /-- outer subquery `RETURN collect(meta) AS connect_meta` (subscriptions). -/
  | outerReturnMeta : Clause
  /-- outer subquery `RETURN count(*) AS _`. -/
  | outerReturnCount : Clause
  /-- carry-over `WITH` of the live variables; the flag records whether the
  `meta` accumulator is threaded along (subscriptions). -/
  | withCarry : List String → Bool → Clause
  /-- relationship-cardinality validation strings. -/
  | relValidation : List String → Clause
  /-- `CALL apoc.util.validate(NOT (...)), error, [0])` over the bind strings. -/
  | validatePost : List String → String → Clause
  /-- subscription-only `WITH collect(meta) ... RETURN REDUCE(...) as connect_meta`. -/
  | collectMetaReturn : Clause
  /-- `RETURN count(*) AS connect_<varName>_<relatedNode>`. -/
  | returnCount : String → Clause
  /-- reducer-level `WITH <withVars>`. -/
  | withVarsC : List String → Clause
  /-- reducer-level `WHERE <parent auth>`. -/
  | whereRaw : String → Clause
  /-- `CALL {`. -/
  | callOpen : Clause
  /-- `}`. -/
  | callClose : Clause
  /-- reducer-level subscription `WITH connect_meta + meta AS meta, ...`. -/
  | metaCarry : Clause

/-- One entry of the `connect` input list, as `createSubqueryContents`
reads it: `connect.where?.node`, `connect.edge ?? {}` and the per-call
duplication flag `connect.createAsDuplicate`. The nested `connect.connect`
recursion (part_000 lines 363-478) is outside the embedded fragment. -/
structure ConnectInput where
  whereNode : Option JSObj
  edge : JSObj
  createAsDuplicate : Bool

/-- The non-varying arguments of `createConnectAndParams`
(part_000 lines 33-63). `labelOverride` is a string with JS truthiness
("" stands for absent, as the recursive calls pass). -/
structure ConnectArgs where
  withVars : List String
  varName : String
  parentVar : String
  relType : String
  relDirectionIn : Bool
  relHasProperties : Bool
  relIsInterface : Bool
  labelOverride : String
  parentNode : GQLNode
  refNodes : List GQLNode
  fromCreate : Bool
  insideDoWhen : Bool
  includeRelationshipValidation : Bool
  isFirstLevel : Bool

/-- The external authorization / validation collaborators the source calls
(`createAuthPredicates`, `createAuthAndParams`,
`createRelationshipValidationString`; none of them is among the staged
files, so they stay opaque functions):
`authWherePred` — `createAuthPredicates` in where mode (lines 158-166);
`allowPred` — `createAuthPredicates` in allow mode (lines 185-197);
`bindAuth` — `createAuthAndParams` in bind mode (lines 486-494), a pair of
the predicate string ("" = none, JS falsy) and its parameters;
`parentWhereAuth` — `createAuthAndParams` in where mode (lines 531-536);
`relValidationStr` — `createRelationshipValidationString` ("" = none). -/
structure AuthHooks where
  authWherePred : GQLNode → Option Pred
  allowPred : GQLNode → Option Pred
  bindAuth : GQLNode → String × JSObj
  parentWhereAuth : GQLNode → String × JSObj
  relValidationStr : GQLNode → String

/-- part_000 lines 90-97: if `_on` is the only where key and it has no
entry for this implementation, the whole subquery is skipped. -/
def skipOnCheck (connect : ConnectInput) (relatedNode : GQLNode) : Bool :=
  match connect.whereNode with
  | none => false
  | some wn =>
    truthy (jsGet wn "_on") && wn.length == 1
      && !(hasOwn (asObj (jsGet wn "_on")) relatedNode.name)

/-- `connect.where.node?._on?.[relName]?.[k]` (part_000 line 105). -/
def onImplValue (wn : JSObj) (relName k : String) : JSValue :=
  dot (dot (jsGet wn "_on") relName) k

/-- part_000 lines 102-112: the root-level where input — every key other
than `_on`, skipping a key whose `_on` entry for this implementation is
truthy (that value is used instead). -/
def rootWhereInput (wn : JSObj) (relName : String) : JSObj :=
  wn.foldl
    (fun args kv =>
      if kv.1 = "_on" then args
      else if truthy (onImplValue wn relName kv.1) then args
      else objSet args kv.1 kv.2)
    []

/-- part_000 lines 126-136: the `_on` where input for this implementation —
all root-level keys, with the implementation's `_on` entries spread over
them in key order. -/
def onTypeWhereInput (wn : JSObj) (relName : String) : JSObj :=
  wn.foldl
    (fun args kv =>
      if kv.1 ≠ "_on" then objSet args kv.1 kv.2
      else if hasOwn (asObj kv.2) relName then objSpread args (asObj (dot kv.2 relName))
      else args)
    []

/-- part_000 lines 89-145: the where predicates attached to the match.
`createWherePredicate` (not among the staged files) yields a predicate
exactly when its where input is non-empty, matching the source's
`if (rootNodeWhereAndParams)` / `if (onTypeNodeWhereAndParams)` guards. -/
def whereClausePreds (connect : ConnectInput) (relatedNode : GQLNode) : List Pred :=
  match connect.whereNode with
  | none => []
  | some wn =>
    (if (rootWhereInput wn relatedNode.name).isEmpty then []
      else [Pred.whereInput (rootWhereInput wn relatedNode.name)])
    ++ (if truthy (dot (jsGet wn "_on") relatedNode.name) then
          (if (onTypeWhereInput wn relatedNode.name).isEmpty then []
            else [Pred.whereInput (onTypeWhereInput wn relatedNode.name)])
        else [])

/-- part_000 lines 169-170: the related node, then (unless the parent was
just created) the parent node. -/
def nodeMatrix (args : ConnectArgs) (relatedNode : GQLNode) : List GQLNode :=
  [relatedNode] ++ (if args.fromCreate then [] else [args.parentNode])

/-- part_000 lines 172-205: the allow-mode authorization predicates of every
participating entity that carries auth rules. -/
def preAuthPreds (hooks : AuthHooks) (args : ConnectArgs) (relatedNode : GQLNode) : List Pred :=
  (nodeMatrix args relatedNode).foldl
    (fun result node =>
      if node.auth then
        match hooks.allowPred node with
        | none => result
        | some p => result ++ [p]
      else result)
    []

/-- part_000 lines 89-213: everything `matchClause.where(...)` receives, in
call order: where-input predicates, the related node's where-mode auth
predicate, and (when any) the conjunction of the validate-wrapped allow
predicates of all participants. -/
def matchWheres (hooks : AuthHooks) (args : ConnectArgs) (relatedNode : GQLNode)
    (connect : ConnectInput) : List Pred :=
  whereClausePreds connect relatedNode
  ++ (if relatedNode.auth then
        match hooks.authWherePred relatedNode with
        | some p => [p]
        | none => []
      else [])
  ++ (if (preAuthPreds hooks args relatedNode).isEmpty then []
      else
        [Pred.andP ((preAuthPreds hooks args relatedNode).map
          (fun p => Pred.validatePred p AUTH_FORBIDDEN_ERROR))])

/-- part_000 lines 248-260: the duplication-policy choice — the per-call
`connect.createAsDuplicate` flag selects an unconditional `CREATE`,
otherwise the relationship pattern is `MERGE`d. -/
def mergeOrCreateClause (args : ConnectArgs) (connect : ConnectInput) : Clause :=
  if connect.createAsDuplicate then Clause.createRel args.varName args.parentVar args.relType
  else Clause.mergeRel args.varName args.parentVar args.relType

/-- part_000 lines 284-285: event-source and event-target variables per
relationship direction. -/
def eventFromToVars (args : ConnectArgs) : String × String :=
  if args.relDirectionIn then (args.varName, args.parentVar) else (args.parentVar, args.varName)

/-- part_000 lines 480-506: the bind-mode (post-condition) participants —
the parent unless it was just created, then the related node. -/
def postAuthNodes (args : ConnectArgs) (relatedNode : GQLNode) : List GQLNode :=
  (if args.fromCreate then [] else [args.parentNode]) ++ [relatedNode]

/-- part_000 lines 480-506: the collected bind predicate strings and their
merged parameters. -/
def postAuthResult (hooks : AuthHooks) (args : ConnectArgs) (relatedNode : GQLNode) :
    List String × JSObj :=
  (postAuthNodes args relatedNode).foldl
    (fun result node =>
      if node.auth then
        let sp := hooks.bindAuth node
        if sp.1 = "" then result
        else (result.1 ++ [sp.1], objSpread result.2 sp.2)
      else result)
    ([], [])

/-- part_000 lines 338-353: the non-empty relationship-validation strings of
the parent and the related node. -/
def relValidationStrs (hooks : AuthHooks) (args : ConnectArgs) (relatedNode : GQLNode) :
    List String :=
  ([args.parentNode, relatedNode].map hooks.relValidationStr).filter (fun s => s ≠ "")

/-- part_000 lines 67-527, `createSubqueryContents`: the per-implementation
connect subquery (clause list) and its parameters, in the source's emission
order. `subs` is `context.subscriptionsEnabled`. The nested
`connect.connect` recursion (lines 363-478) is not part of the embedded
fragment; in this mid-refactor source the where parameters flow through the
cypher-builder environment and the edge-`SET` parameters are dropped
(line 266-274, "TODO fix this"), so the returned parameter record carries
exactly the post-condition (bind) parameters. -/
def createSubqueryContents (subs : Bool) (hooks : AuthHooks) (args : ConnectArgs)
    (relatedNode : GQLNode) (connect : ConnectInput) : List Clause × JSObj :=
  if skipOnCheck connect relatedNode then ([], [])
  else
    let lbl := if args.labelOverride ≠ "" then ":" ++ args.labelOverride
               else relatedNode.labelString
    let postA := postAuthResult hooks args relatedNode
    let relVs := relValidationStrs hooks args relatedNode
    let clauses :=
      [Clause.optionalMatch lbl args.withVars (matchWheres hooks args relatedNode connect)]
      ++ (if subs then [Clause.metaInit] else [])
      ++ [Clause.withCollectNodes]
      ++ (if subs then [Clause.metaInit] else [])
      ++ [Clause.unwindNodes]
      ++ [mergeOrCreateClause args connect]
      ++ (if args.relHasProperties then [Clause.setRelProps connect.edge] else [])
      ++ (if subs then
            [Clause.eventMetaWith (eventFromToVars args).1 (eventFromToVars args).2 args.relType,
             Clause.innerReturnMeta]
          else [Clause.innerReturnCount])
      ++ (if subs then [Clause.metaConcatWith, Clause.outerReturnMeta]
          else [Clause.outerReturnCount])
      ++ (if args.includeRelationshipValidation && !relVs.isEmpty then
            [Clause.withCarry (args.withVars ++ [args.varName]) subs,
             Clause.relValidation relVs]
          else [])
      ++ [Clause.withCarry (args.withVars ++ [args.varName]) subs]
      ++ (if !postA.1.isEmpty then
            [Clause.withVarsC (args.withVars ++ [args.varName]),
             Clause.validatePost postA.1 AUTH_FORBIDDEN_ERROR]
          else [])
      ++ (if subs then [Clause.collectMetaReturn]
          else [Clause.returnCount ("connect_" ++ args.varName ++ "_" ++ relatedNode.name)])
    (clauses, postA.2)

/-- part_000 lines 530-542: the per-entry parent-node where-mode auth
clauses the reducer prefixes (skipped when the parent was just created). -/
def parentAuthClauses (hooks : AuthHooks) (args : ConnectArgs) : List Clause × JSObj :=
  if args.parentNode.auth && !args.fromCreate then
    let sp := hooks.parentWhereAuth args.parentNode
    if sp.1 ≠ "" then ([Clause.withVarsC args.withVars, Clause.whereRaw sp.1], sp.2)
    else ([], [])
  else ([], [])

/-- part_000 lines 550-557: the interface branch — one subquery per
implementation, keeping only the non-empty ones and merging their
parameters. -/
def interfaceSubqueries (subs : Bool) (hooks : AuthHooks) (args : ConnectArgs)
    (connect : ConnectInput) : List (List Clause) × JSObj :=
  args.refNodes.foldl
    (fun acc refNode =>
      let sub := createSubqueryContents subs hooks args refNode connect
      if sub.1.isEmpty then acc else (acc.1 ++ [sub.1], objSpread acc.2 sub.2))
    ([], [])

/-- part_000 lines 558-566: the kept interface subqueries are joined by
closing and reopening the `CALL`, threading the meta accumulator between
them when subscriptions are enabled. -/
def joinCallSeparated (subs : Bool) : List (List Clause) → List Clause
  | [] => []
  | [s] => s
  | s :: rest =>
    s ++ [Clause.callClose] ++ (if subs then [Clause.metaCarry] else [])
      ++ [Clause.callOpen] ++ joinCallSeparated subs (rest)

/-- part_000 lines 548-572: the inner contents of the entry's `CALL`. In
the non-interface branch the source reads `refNodes[0]` (never empty in
practice). -/
def entryInner (subs : Bool) (hooks : AuthHooks) (args : ConnectArgs)
    (connect : ConnectInput) : List Clause × JSObj :=
  if args.relIsInterface then
    let sq := interfaceSubqueries subs hooks args connect
    (joinCallSeparated subs sq.1, sq.2)
  else
    match args.refNodes with
    | [] => ([], [])
    | refNode :: _ => createSubqueryContents subs hooks args refNode connect

/-- part_000 lines 548-577: whether the reducer pushes the `CALL` wrapper —
the interface branch only when some implementation produced a subquery, the
non-interface branch always (it pushes the single subquery string, empty or
not). -/
def entryInnerPresent (subs : Bool) (hooks : AuthHooks) (args : ConnectArgs)
    (connect : ConnectInput) : Bool :=
  if args.relIsInterface then !(interfaceSubqueries subs hooks args connect).1.isEmpty else true

/-- part_000 lines 529-585: everything `reducer` appends for one connect
entry, and the entry's parameters. The entry-index argument of the source's
reducer is unused there and omitted. -/
def entryBlock (subs : Bool) (hooks : AuthHooks) (args : ConnectArgs)
    (connect : ConnectInput) : List Clause × JSObj :=
  let pa := parentAuthClauses hooks args
  let first := if args.isFirstLevel then [Clause.withVarsC args.withVars] else []
  let inner := entryInner subs hooks args connect
  let innerPart :=
    if entryInnerPresent subs hooks args connect then
      [Clause.callOpen] ++ inner.1 ++ [Clause.callClose]
        ++ (if subs then [Clause.metaCarry] else [])
    else []
  (pa.1 ++ first ++ innerPart, objSpread pa.2 inner.2)

/-- part_000 lines 529-585: the reducer — appends the entry's clauses and
right-bias-merges the entry's parameters over the accumulated ones
(`res.params = { ...res.params, ...subquery.params }`). -/
def reducer (subs : Bool) (hooks : AuthHooks) (args : ConnectArgs)
    (res : List Clause × JSObj) (connect : ConnectInput) : List Clause × JSObj :=
  let b := entryBlock subs hooks args connect
  (res.1 ++ b.1, objSpread res.2 b.2)

/-- part_000 lines 587-592: the top-level fold over the connect entries
(`relationField.typeMeta.array ? value : [value]` — the caller passes the
entry list). -/
def createConnectAndParams (subs : Bool) (hooks : AuthHooks) (args : ConnectArgs)
    (entries : List ConnectInput) : List Clause × JSObj :=
  entries.foldl (reducer subs hooks args) ([], [])

/-! ### Execution semantics of the relationship-write clauses

Modelled from the spec (section 4.5): a `MERGE` of the relationship pattern
reuses an existing edge of the same type between the same two nodes when
one is present, an unconditional `CREATE` always adds a new edge. The graph
state is the list of edges `(source node, target node, type)`; `env` maps
the program's variable names to the concrete nodes the enclosing match
bound them to. -/

/-- An edge of the graph state: source node, target node, relationship type. -/
abbrev EdgeTriple := String × String × String

/-- Effect of one clause on the edge list; clauses that do not write
relationships leave the graph unchanged. -/
def runWriteClause (env : String → String) (g : List EdgeTriple) : Clause → List EdgeTriple
  | Clause.mergeRel a b t =>
    if (env a, env b, t) ∈ g then g else g ++ [(env a, env b, t)]
  | Clause.createRel a b t => g ++ [(env a, env b, t)]
  | _ => g

/-- Runs an emitted clause list over a graph state. -/
def runProgram (env : String → String) (cs : List Clause) (g : List EdgeTriple) :
    List EdgeTriple :=
  cs.foldl (runWriteClause env) g

/-- Whether a clause writes a relationship. -/
def isWriteClause : Clause → Bool
  | Clause.mergeRel _ _ _ => true
  | Clause.createRel _ _ _ => true
  | _ => false

/-! ### The primary data effect of a program

The data-relevant content of the emitted clauses: what is matched (and
under which predicates), which relationships are merged or created, which
properties are set, which filters and runtime validations apply. The
subscription event-metadata threading (meta `WITH`s, meta returns, meta
carry-overs) contributes nothing here. -/

/-- One data-relevant operation of the program. -/
inductive DataOp : Type where
  | matched : String → List String → List Pred → DataOp
  | merged : String → String → String → DataOp
  | created : String → String → String → DataOp
  | propsSet : JSObj → DataOp
  | filtered : String → DataOp
  | validated : List String → String → DataOp
  | cardinalityChecked : List String → DataOp

/-- The data-relevant operations of one clause. -/
def dataOpsOf : Clause → List DataOp
  | Clause.optionalMatch l vs ws => [DataOp.matched l vs ws]
  | Clause.mergeRel a b t => [DataOp.merged a b t]
  | Clause.createRel a b t => [DataOp.created a b t]
  | Clause.setRelProps p => [DataOp.propsSet p]
  | Clause.whereRaw s => [DataOp.filtered s]
  | Clause.validatePost cs e => [DataOp.validated cs e]
  | Clause.relValidation ss => [DataOp.cardinalityChecked ss]
  | _ => []

/-- The primary data effect of a program: its data-relevant operations in
emission order. -/
def dataEffect (cs : List Clause) : List DataOp :=
  (cs.map dataOpsOf).flatten

/-! ### Sibling connect entries' parameter bindings

The reducer right-bias-merges sibling entries' parameter objects
(part_000 lines 555, 571, `res.params = { ...res.params, ...subquery.params }`),
and the parameter names do not depend on the entry's position in the
connect list (the `index` argument of `createSubqueryContents` is unused
there, line 569). The name scheme itself lives in helpers that are not
among the staged files. -/

/-- Modelled from the spec: the parameter bindings one connect entry
contributes (the where/edge parameter generation of
`createWherePredicate` / `create-set-relationship-properties-and-params`
is not among the staged files). Per spec section 3 and 4.6, parameter names
are derived deterministically from the nesting path — the entry's variable
name, a node/relationship qualifier and the field name — and, as in the
source, not from the entry's index in the connect list. -/
def entryParamBindings (varName : String) (connect : ConnectInput) : JSObj :=
  ((connect.whereNode.getD []).map (fun kv => (varName ++ "_node_" ++ kv.1, kv.2)))
  ++ (connect.edge.map (fun kv => (varName ++ "_relationship_" ++ kv.1, kv.2)))

/-- The reducer's parameter accumulation over the sibling connect entries
(part_000 lines 569-571, 587-590): right-bias spread of each entry's
bindings over the accumulated ones. -/
def siblingParams (varName : String) (entries : List ConnectInput) : JSObj :=
  entries.foldl (fun p c => objSpread p (entryParamBindings varName c)) []

/-- First connect entry of the failing input documented in
src/docs/rfcs/rfc-029-connect-in-update-mutations.md (lines 729-763):
edge type "something", target node id ec3a8915-544d-4069-83f9-4ccf7ca87156. -/
def rfcConnectEntry1 : ConnectInput :=
  { whereNode := some [("id", JSValue.strV "ec3a8915-544d-4069-83f9-4ccf7ca87156")],
    edge := [("type", JSValue.strV "something")],
    createAsDuplicate := false }

/-- Second connect entry of the same RFC input: identical shape and target,
edge type "something2". -/
def rfcConnectEntry2 : ConnectInput :=
  { whereNode := some [("id", JSValue.strV "ec3a8915-544d-4069-83f9-4ccf7ca87156")],
    edge := [("type", JSValue.strV "something2")],
    createAsDuplicate := false }

/-! ### Root-connection sort translation -/

/-- A sortable/selectable field: its name and whether it is backed by a
custom cypher expression (a computed field). -/
structure SortField where
  name : String
  isCypher : Bool
deriving DecidableEq

/-- The clause skeleton of a compiled root-connection read. -/
inductive ReadClause : Type where
  | matchNode : ReadClause
  | collectProjection : List SortField → ReadClause
  | orderBy : SortField → ReadClause
  | skipLimit : ReadClause
  | finalProjection : List SortField → ReadClause
deriving DecidableEq

/-- Modelled from the spec: the root-connection read translation with a
sort (spec section 4.4 sorting rule; the projection/sort translate code of
the repository is not among the staged files — src/unnamed/part_002 lines
343-439 are its TCK tests). When the sort key is a cypher-backed field the
collect projection materializes exactly that field before `ORDER BY`;
otherwise the collect projects no computed field, and computed selections
are only projected in the final projection, after sort and pagination. -/
def translateConnectionRead (selected : List SortField) (sortField : SortField)
    (hasPagination : Bool) : List ReadClause :=
  [ReadClause.matchNode,
   ReadClause.collectProjection (if sortField.isCypher then [sortField] else []),
   ReadClause.orderBy sortField]
  ++ (if hasPagination then [ReadClause.skipLimit] else [])
  ++ [ReadClause.finalProjection selected]

/-- The fields a clause materializes ahead of the final projection. -/
def projectedFields : ReadClause → List SortField
  | ReadClause.collectProjection fs => fs
  | _ => []

/-- Whether a clause is the sort or the pagination clause. -/
def isSortOrPaging : ReadClause → Bool
  | ReadClause.orderBy _ => true
  | ReadClause.skipLimit => true
  | _ => false

/-- The fields materialized strictly before the first sort/pagination
clause of the program. -/
def materializedBeforeSort (cs : List ReadClause) : List SortField :=
  ((cs.takeWhile (fun c => !isSortOrPaging c)).map projectedFields).flatten

/-! ### One-time deprecation warning of getCustomResolverMeta -/

/-- The directive environment of one `getCustomResolverMeta` call:
the names of `field.directives` and of `interfaceField?.directives`
(src/unnamed/part_001 lines 49-68; `[]` stands for an absent
interface field). -/
structure ResolverFieldInput where
  fieldDirectives : List String
  interfaceFieldDirectives : List String

/-- part_001 lines 66-68: whether the call sees the deprecated `computed`
directive on the field or on the matching interface field. -/
def hasDeprecatedComputed (inp : ResolverFieldInput) : Bool :=
  inp.fieldDirectives.contains "computed" || inp.interfaceFieldDirectives.contains "computed"

/-- part_001 lines 47, 70-73: the warning fragment of
`getCustomResolverMeta`, with the module-level `deprecationWarningShown`
flag made explicit state. Returns whether this call prints the warning,
and the flag afterwards. (The meta value the function returns is
irrelevant to the property and omitted.) -/
def getCustomResolverMetaWarning (shown : Bool) (inp : ResolverFieldInput) : Bool × Bool :=
  if hasDeprecatedComputed inp && !shown then (true, true) else (false, shown)

/-- A sequence of `getCustomResolverMeta` calls within one process:
the per-call warning emissions and the final flag. -/
def runResolverCalls (shown : Bool) : List ResolverFieldInput → List Bool × Bool
  | [] => ([], shown)
  | inp :: rest =>
    let r := getCustomResolverMetaWarning shown inp
    let rr := runResolverCalls r.2 rest
    (r.1 :: rr.1, rr.2)

/-- How many warnings a call sequence printed. -/
def warningCount (l : List Bool) : Nat := (l.filter id).length

/-! ### Concrete instances for witnesses and counterexamples -/

/-- Number of edges of a graph state equal to the given triple. -/
def edgeCount (g : List EdgeTriple) (e : EdgeTriple) : Nat := g.count e

/-- A concrete related node with auth rules. -/
def actorNode : GQLNode := { name := "Actor", auth := true, labelString := ":Actor" }

/-- A concrete parent node with auth rules. -/
def movieNode : GQLNode := { name := "Movie", auth := true, labelString := ":Movie" }

/-- Concrete authorization hooks for witnesses. -/
def hooksW : AuthHooks :=
  { authWherePred := fun n => some (Pred.authPred (n.name ++ "_where")),
    allowPred := fun n => some (Pred.authPred (n.name ++ "_allow")),
    bindAuth := fun n => ("bind_" ++ n.name, [(n.name ++ "_bind0", JSValue.strV "sub")]),
    parentWhereAuth := fun n => ("where_" ++ n.name, []),
    relValidationStr := fun _ => "" }

/-- Concrete arguments for witnesses: an update-mutation connect of
`Movie.actors` (type ACTED_IN, direction IN, relationship properties). -/
def argsW : ConnectArgs :=
  { withVars := ["this"], varName := "this0", parentVar := "this",
    relType := "ACTED_IN", relDirectionIn := true, relHasProperties := true,
    relIsInterface := false, labelOverride := "", parentNode := movieNode,
    refNodes := [actorNode], fromCreate := false, insideDoWhen := false,
    includeRelationshipValidation := false, isFirstLevel := true }

/-- The same arguments with an interface-typed relationship field. -/
def argsIfaceW : ConnectArgs :=
  { argsW with relIsInterface := true }

/-- A concrete connect entry under the default (merge) duplication policy. -/
def connectMergeW : ConnectInput :=
  { whereNode := some [("name", JSValue.strV "An Actor")],
    edge := [("screenTime", JSValue.numV 321)], createAsDuplicate := false }

/-- The same connect entry with the per-call duplicate flag set. -/
def connectDupW : ConnectInput :=
  { connectMergeW with createAsDuplicate := true }

/-- A connect entry whose where filter is a type-narrowing `_on` clause
only, with an entry for `Show` but none for `Actor`. -/
def connectOnOnlyW : ConnectInput :=
  { whereNode := some [("_on", JSValue.obj [("Show", JSValue.obj [("title", JSValue.strV "s")])])],
    edge := [], createAsDuplicate := false }

/-- Counterexample where filter: the key `age` appears at the root level
(value 5) and inside `_on.Impl` with the falsy value 0. -/
def onOverrideWhereCex : JSObj :=
  [("age", JSValue.numV 5),
   ("_on", JSValue.obj [("Impl", JSValue.obj [("age", JSValue.numV 0)])])]

/-- Witness where filter for the amended `_on` override rule: root keys
`name` and `age`, with `age` overridden by the truthy 7 in `_on.Impl`. -/
def onOverrideWhereW : JSObj :=
  [("name", JSValue.strV "x"), ("age", JSValue.numV 5),
   ("_on", JSValue.obj [("Impl", JSValue.obj [("age", JSValue.numV 7)])])]

/-- A concrete computed (cypher-backed) sort field. -/
def totalGenresField : SortField := { name := "totalGenres", isCypher := true }

/-- A concrete stored sort field. -/
def titleField : SortField := { name := "title", isCypher := false }

/-- A concrete call sequence for the deprecation-warning witness: two calls
that see the deprecated directive around one that does not. -/
def resolverCallsW : List ResolverFieldInput :=
  [{ fieldDirectives := ["computed"], interfaceFieldDirectives := [] },
   { fieldDirectives := ["customResolver"], interfaceFieldDirectives := [] },
   { fieldDirectives := [], interfaceFieldDirectives := ["computed"] }]

/-! ## Supporting lemmas -/

theorem runWriteClause_of_not_write (env : String → String) (g : List EdgeTriple)
    (c : Clause) (h : isWriteClause c = false) : runWriteClause env g c = g := by
  cases c <;> simp_all [isWriteClause, runWriteClause]

theorem runProgram_filter_writes (env : String → String) (cs : List Clause)
    (g : List EdgeTriple) :
    runProgram env cs g = runProgram env (cs.filter isWriteClause) g := by
  induction cs generalizing g with
  | nil => rfl
  | cons c rest ih =>
    by_cases h : isWriteClause c = true
    · simp only [runProgram, List.foldl_cons, List.filter_cons, h, if_pos]
      exact ih (runWriteClause env g c)
    · have hf : isWriteClause c = false := by simpa using h
      simp only [runProgram, List.foldl_cons, List.filter_cons, hf,
        runWriteClause_of_not_write env g c hf, Bool.false_eq_true, if_false]
      exact ih g

theorem isWriteClause_mergeOrCreate (args : ConnectArgs) (connect : ConnectInput) :
    isWriteClause (mergeOrCreateClause args connect) = true := by
  rw [mergeOrCreateClause]
  split <;> rfl

theorem subquery_filter_writes (subs : Bool) (hooks : AuthHooks) (args : ConnectArgs)
    (relatedNode : GQLNode) (connect : ConnectInput)
    (hskip : skipOnCheck connect relatedNode = false) :
    ((createSubqueryContents subs hooks args relatedNode connect).1).filter isWriteClause
      = [mergeOrCreateClause args connect] := by
  rw [createSubqueryContents]
  rw [if_neg (by simp [hskip])]
  simp only [List.filter_append, apply_ite (List.filter isWriteClause),
    List.filter_cons, List.filter_nil, isWriteClause, isWriteClause_mergeOrCreate,
    if_true, ite_self, List.nil_append, List.append_nil, Bool.false_eq_true, if_false]
  rw [mergeOrCreateClause]
  split <;> rfl

theorem subquery_run_once (subs : Bool) (hooks : AuthHooks) (args : ConnectArgs)
    (relatedNode : GQLNode) (connect : ConnectInput) (env : String → String)
    (hskip : skipOnCheck connect relatedNode = false) (g : List EdgeTriple) :
    runProgram env ((createSubqueryContents subs hooks args relatedNode connect).1) g
      = runWriteClause env g (mergeOrCreateClause args connect) := by
  rw [runProgram_filter_writes, subquery_filter_writes subs hooks args relatedNode connect hskip]
  simp [runProgram]

/-! ## C1 — duplication policy: MERGE is idempotent, CREATE duplicates -/

/-- C1: for a connect whose effective duplication policy is merge (the
default, `connect.createAsDuplicate` unset) the compiled subquery's only
relationship write is a `MERGE`, so executing the same connect between the
same two nodes twice leaves exactly one edge of that type between them;
with the duplicate policy (`connect.createAsDuplicate` set) the only write
is an unconditional `CREATE`, and every execution adds a new edge
regardless of the existing edges. -/
theorem connect_duplication_policy (subs : Bool) (hooks : AuthHooks) (args : ConnectArgs)
    (relatedNode : GQLNode) (connect : ConnectInput) (env : String → String)
    (g : List EdgeTriple)
    (hskip : skipOnCheck connect relatedNode = false) :
    (connect.createAsDuplicate = false →
        edgeCount g (env args.varName, env args.parentVar, args.relType) = 0 →
        edgeCount
          (runProgram env ((createSubqueryContents subs hooks args relatedNode connect).1)
            (runProgram env ((createSubqueryContents subs hooks args relatedNode connect).1) g))
          (env args.varName, env args.parentVar, args.relType) = 1)
    ∧ (connect.createAsDuplicate = true →
        edgeCount
          (runProgram env ((createSubqueryContents subs hooks args relatedNode connect).1) g)
          (env args.varName, env args.parentVar, args.relType)
          = edgeCount g (env args.varName, env args.parentVar, args.relType) + 1) := by
  have hrun := subquery_run_once subs hooks args relatedNode connect env hskip
  constructor
  · intro hdup h0
    have hm : mergeOrCreateClause args connect
        = Clause.mergeRel args.varName args.parentVar args.relType := by
      simp [mergeOrCreateClause, hdup]
    have hnot : (env args.varName, env args.parentVar, args.relType) ∉ g := by
      simpa [edgeCount, List.count_eq_zero] using h0
    rw [hrun g, hrun _]
    rw [hm]
    simp only [runWriteClause]
    rw [if_neg hnot]
    rw [if_pos (by simp)]
    simp only [edgeCount] at h0
    simp [edgeCount, List.count_append, h0]
  · intro hdup
    have hm : mergeOrCreateClause args connect
        = Clause.createRel args.varName args.parentVar args.relType := by
      simp [mergeOrCreateClause, hdup]
    rw [hrun g, hm]
    simp [runWriteClause, edgeCount, List.count_append]

/-- Witness for C1 at a concrete input: two runs of the merge-policy
connect from the empty graph leave one ACTED_IN edge; one run of the
duplicate-policy connect from the same one-edge graph adds another. -/
theorem connect_duplication_policy_witness :
    (edgeCount
      (runProgram id ((createSubqueryContents false hooksW argsW actorNode connectMergeW).1)
        (runProgram id ((createSubqueryContents false hooksW argsW actorNode connectMergeW).1) []))
      (id argsW.varName, id argsW.parentVar, argsW.relType) = 1)
    ∧ (edgeCount
        (runProgram id ((createSubqueryContents false hooksW argsW actorNode connectDupW).1)
          [("this0", "this", "ACTED_IN")])
        (id argsW.varName, id argsW.parentVar, argsW.relType)
        = edgeCount [("this0", "this", "ACTED_IN")]
            (id argsW.varName, id argsW.parentVar, argsW.relType) + 1) :=
  ⟨(connect_duplication_policy false hooksW argsW actorNode connectMergeW id []
      (by decide)).1 rfl (by decide),
   (connect_duplication_policy false hooksW argsW actorNode connectDupW id
      [("this0", "this", "ACTED_IN")] (by decide)).2 rfl⟩

/-! ## C4 — a type-narrowing-only filter that skips this implementation -/

/-- C4: when the where filter on the related node is a type-narrowing
`_on` clause only and it carries no entry for the implementation being
compiled, the compiled result for that implementation is empty — no
clauses, no predicates, no parameters — and for an interface-typed
relationship whose implementations are all skipped the entry emits no
`CALL` block at all; compilation returns normally (a no-op, not an
error or a contradiction). -/
theorem connect_on_narrowing_skip (subs : Bool) (hooks : AuthHooks) (args : ConnectArgs)
    (relatedNode : GQLNode) (connect : ConnectInput)
    (hskip : skipOnCheck connect relatedNode = true) :
    createSubqueryContents subs hooks args relatedNode connect = ([], [])
    ∧ (args.relIsInterface = true → args.refNodes = [relatedNode] →
        (entryBlock subs hooks args connect).1
          = (parentAuthClauses hooks args).1
            ++ (if args.isFirstLevel then [Clause.withVarsC args.withVars] else [])
        ∧ (entryBlock subs hooks args connect).2 = (parentAuthClauses hooks args).2) := by
  have hempty : createSubqueryContents subs hooks args relatedNode connect = ([], []) := by
    rw [createSubqueryContents, if_pos hskip]
  refine ⟨hempty, fun hif href => ?_⟩
  have hifs : interfaceSubqueries subs hooks args connect = ([], []) := by
    simp [interfaceSubqueries, href, hempty]
  constructor
  · simp [entryBlock, entryInnerPresent, entryInner, hif, hifs, joinCallSeparated]
  · simp [entryBlock, entryInner, hif, hifs, objSpread]

/-- Witness for C4 at a concrete input: an `_on`-only filter naming only
`Show` compiled against the implementation `Actor`. -/
theorem connect_on_narrowing_skip_witness :
    createSubqueryContents false hooksW argsIfaceW actorNode connectOnOnlyW = ([], [])
    ∧ ((entryBlock false hooksW argsIfaceW connectOnOnlyW).1
        = (parentAuthClauses hooksW argsIfaceW).1
          ++ (if argsIfaceW.isFirstLevel then [Clause.withVarsC argsIfaceW.withVars] else [])
      ∧ (entryBlock false hooksW argsIfaceW connectOnOnlyW).2
          = (parentAuthClauses hooksW argsIfaceW).2) :=
  ⟨(connect_on_narrowing_skip false hooksW argsIfaceW actorNode connectOnOnlyW (by decide)).1,
   (connect_on_narrowing_skip false hooksW argsIfaceW actorNode connectOnOnlyW (by decide)).2
     rfl rfl⟩

/-! ## C2 — sibling connect entries overwrite each other's parameters -/

/-- C2, evaluated at the failing input of RFC-029: the two structurally
identical connect entries (edge types "something" and "something2") bind
identically named parameters, and the reducer's right-bias merge leaves
only the second entry's edge binding in the final parameter map — the
first entry's binding is overwritten, so the entries do not have
independent effects. -/
theorem connect_sibling_params_overwritten :
    siblingParams "this0_sponsor0" [rfcConnectEntry1, rfcConnectEntry2]
      = [("this0_sponsor0_node_id", JSValue.strV "ec3a8915-544d-4069-83f9-4ccf7ca87156"),
         ("this0_sponsor0_relationship_type", JSValue.strV "something2")] := rfl

/-! ## C6 — deterministic compilation, sibling order preserved -/

theorem foldl_reducer_eq (subs : Bool) (hooks : AuthHooks) (args : ConnectArgs)
    (entries : List ConnectInput) (res : List Clause × JSObj) :
    entries.foldl (reducer subs hooks args) res
      = (res.1 ++ (entries.map (fun c => (entryBlock subs hooks args c).1)).flatten,
         entries.foldl (fun p c => objSpread p (entryBlock subs hooks args c).2) res.2) := by
  induction entries generalizing res with
  | nil => simp
  | cons c rest ih =>
    simp only [List.foldl_cons, List.map_cons, List.flatten_cons, ih, reducer,
      List.append_assoc]

/-- C6: compilation is a pure function of the input — the compiled clause
list is exactly the concatenation, in input order, of each connect entry's
block, and the parameter map is the deterministic left fold of the
entries' parameter objects; compiling the same entries twice therefore
yields structurally identical programs and parameter maps, and sibling
sub-operations keep their input order. -/
theorem connect_compile_deterministic (subs : Bool) (hooks : AuthHooks) (args : ConnectArgs)
    (entries : List ConnectInput) :
    createConnectAndParams subs hooks args entries
      = ((entries.map (fun c => (entryBlock subs hooks args c).1)).flatten,
         entries.foldl (fun p c => objSpread p (entryBlock subs hooks args c).2) []) := by
  simpa [createConnectAndParams] using foldl_reducer_eq subs hooks args entries ([], [])

/-! ## C10 — the deprecation warning is printed at most once -/

theorem warningCount_cons_true (l : List Bool) :
    warningCount (true :: l) = warningCount l + 1 := by
  simp [warningCount]

theorem warningCount_cons_false (l : List Bool) :
    warningCount (false :: l) = warningCount l := by
  simp [warningCount]

theorem warningCount_runResolverCalls (calls : List ResolverFieldInput) (shown : Bool) :
    warningCount (runResolverCalls shown calls).1 ≤ (if shown then 0 else 1) := by
  induction calls generalizing shown with
  | nil => simp [runResolverCalls, warningCount]
  | cons inp rest ih =>
    by_cases h : (hasDeprecatedComputed inp && !shown) = true
    · have hs : shown = false := by
        rcases Bool.and_eq_true_iff.mp h with ⟨-, h2⟩
        simpa using h2
      subst hs
      have h2 := ih true
      simp only [if_true] at h2
      simp only [runResolverCalls, getCustomResolverMetaWarning, h, if_pos,
        warningCount_cons_true, Bool.false_eq_true, if_false]
      omega
    · have hf : (hasDeprecatedComputed inp && !shown) = false := by simpa using h
      simp only [runResolverCalls, getCustomResolverMetaWarning, hf, Bool.false_eq_true,
        if_false, warningCount_cons_false]
      exact ih shown

theorem warns_only_deprecated (calls : List ResolverFieldInput) (shown : Bool) :
    List.Forall₂ (fun w inp => w = true → hasDeprecatedComputed inp = true)
      (runResolverCalls shown calls).1 calls := by
  induction calls generalizing shown with
  | nil => simp [runResolverCalls]
  | cons inp rest ih =>
    simp only [runResolverCalls]
    refine List.Forall₂.cons ?_ (ih _)
    intro hw
    by_cases h : hasDeprecatedComputed inp && !shown
    · exact (Bool.and_eq_true_iff.mp h).1
    · have hf : (hasDeprecatedComputed inp && !shown) = false := by simpa using h
      simp [getCustomResolverMetaWarning, hf] at hw

/-- C10: across any sequence of `getCustomResolverMeta` calls in one
process (the module-level flag starting unset), at most one call prints
the deprecation warning, and a call prints it only if that call saw the
deprecated `computed` directive. -/
theorem deprecation_warning_at_most_once (calls : List ResolverFieldInput) :
    warningCount (runResolverCalls false calls).1 ≤ 1
    ∧ List.Forall₂ (fun w inp => w = true → hasDeprecatedComputed inp = true)
        (runResolverCalls false calls).1 calls :=
  ⟨by simpa using warningCount_runResolverCalls calls false,
   warns_only_deprecated calls false⟩

/-! ## C5 — computed sort keys are materialized before sort and pagination -/

/-- C5: in the compiled root-connection read, sorting on a computed
(cypher-backed) field materializes that field's projection strictly before
the sort clause and before any limit/offset clause; sorting on a stored
field materializes no computed projection before sort/pagination —
selected fields (computed ones included) are then projected only in the
final projection, the program's last clause. -/
theorem sort_computed_field_materialization (selected : List SortField) (sortField : SortField)
    (hasPagination : Bool) :
    (sortField.isCypher = true →
        sortField ∈ materializedBeforeSort
          (translateConnectionRead selected sortField hasPagination))
    ∧ (sortField.isCypher = false →
        materializedBeforeSort (translateConnectionRead selected sortField hasPagination) = [])
    ∧ (translateConnectionRead selected sortField hasPagination).getLast?
        = some (ReadClause.finalProjection selected) := by
  refine ⟨fun hc => ?_, fun hc => ?_, ?_⟩
  · simp [translateConnectionRead, materializedBeforeSort, List.takeWhile_cons,
      isSortOrPaging, projectedFields, hc]
  · simp [translateConnectionRead, materializedBeforeSort, List.takeWhile_cons,
      isSortOrPaging, projectedFields, hc]
  · rw [translateConnectionRead]
    exact List.getLast?_concat _

/-- Witness for C5 at concrete inputs: sorting on the computed
`totalGenres` materializes it before the sort; sorting on the stored
`title` (with pagination) materializes nothing before the sort. -/
theorem sort_computed_field_materialization_witness :
    totalGenresField ∈ materializedBeforeSort
        (translateConnectionRead [titleField, totalGenresField] totalGenresField false)
    ∧ materializedBeforeSort
        (translateConnectionRead [titleField, totalGenresField] titleField true) = [] :=
  ⟨(sort_computed_field_materialization [titleField, totalGenresField]
      totalGenresField false).1 rfl,
   (sort_computed_field_materialization [titleField, totalGenresField]
      titleField true).2.1 rfl⟩

/-! ## C3 — connect includes every participant's CONNECT auth predicate -/

/-- C3: connecting two existing nodes (the parent not just created) where
both participants carry CONNECT authorization rules puts the
validate-wrapped allow predicates of both the related node and the parent
node, conjoined by `Cypher.and`, into the where list of the optional-match
clause of the compiled subquery — no participant's predicate is omitted
before the edge is materialized. -/
theorem connect_auth_both_participants (subs : Bool) (hooks : AuthHooks) (args : ConnectArgs)
    (relatedNode : GQLNode) (connect : ConnectInput) (pr pp : Pred)
    (hfc : args.fromCreate = false)
    (hra : relatedNode.auth = true) (hpa : args.parentNode.auth = true)
    (hr : hooks.allowPred relatedNode = some pr)
    (hp : hooks.allowPred args.parentNode = some pp)
    (hskip : skipOnCheck connect relatedNode = false) :
    ∃ lbl ws, Clause.optionalMatch lbl args.withVars ws
        ∈ (createSubqueryContents subs hooks args relatedNode connect).1
      ∧ Pred.andP [Pred.validatePred pr AUTH_FORBIDDEN_ERROR,
                   Pred.validatePred pp AUTH_FORBIDDEN_ERROR] ∈ ws := by
  have hpre : preAuthPreds hooks args relatedNode = [pr, pp] := by
    simp [preAuthPreds, nodeMatrix, hfc, hra, hpa, hr, hp]
  refine ⟨if args.labelOverride ≠ "" then ":" ++ args.labelOverride else relatedNode.labelString,
    matchWheres hooks args relatedNode connect, ?_, ?_⟩
  · rw [createSubqueryContents, if_neg (by simp [hskip])]
    simp
  · simp [matchWheres, hpre]

/-- Witness for C3 at a concrete input: both the Actor (related) and the
Movie (parent) allow predicates appear conjoined in the match. -/
theorem connect_auth_both_participants_witness :
    ∃ lbl ws, Clause.optionalMatch lbl argsW.withVars ws
        ∈ (createSubqueryContents false hooksW argsW actorNode connectMergeW).1
      ∧ Pred.andP [Pred.validatePred (Pred.authPred "Actor_allow") AUTH_FORBIDDEN_ERROR,
                   Pred.validatePred (Pred.authPred "Movie_allow") AUTH_FORBIDDEN_ERROR] ∈ ws :=
  connect_auth_both_participants false hooksW argsW actorNode connectMergeW
    (Pred.authPred "Actor_allow") (Pred.authPred "Movie_allow")
    rfl rfl rfl rfl rfl (by decide)

/-! ## C7 — bind rules become a runtime validate call after the write -/

/-- C7: when the related node carries bind (post-condition) authorization
rules, compilation succeeds and returns a program that contains, after the
merge/create write clause, the runtime `apoc.util.validate` call over the
collected bind predicates with the forbidden-access error constant — the
error is a runtime effect embedded in the program, not a compilation
failure. -/
theorem connect_bind_validation_embedded (subs : Bool) (hooks : AuthHooks) (args : ConnectArgs)
    (relatedNode : GQLNode) (connect : ConnectInput) (s : String) (p : JSObj)
    (hra : relatedNode.auth = true)
    (hb : hooks.bindAuth relatedNode = (s, p)) (hs : s ≠ "")
    (hskip : skipOnCheck connect relatedNode = false) :
    ∃ l1 l2, (createSubqueryContents subs hooks args relatedNode connect).1
        = l1 ++ [mergeOrCreateClause args connect] ++ l2
      ∧ ∃ conds, Clause.validatePost conds AUTH_FORBIDDEN_ERROR ∈ l2 ∧ s ∈ conds := by
  have hpost : ∃ pre, (postAuthResult hooks args relatedNode).1 = pre ++ [s] := by
    by_cases hfc : args.fromCreate = true
    · refine ⟨[], ?_⟩
      simp [postAuthResult, postAuthNodes, hfc, hra, hb, hs]
    · have hfc2 : args.fromCreate = false := by simpa using hfc
      by_cases hpa : args.parentNode.auth = true
      · by_cases hbp : (hooks.bindAuth args.parentNode).1 = ""
        · refine ⟨[], ?_⟩
          simp [postAuthResult, postAuthNodes, hfc2, hpa, hbp, hra, hb, hs]
        · refine ⟨[(hooks.bindAuth args.parentNode).1], ?_⟩
          simp [postAuthResult, postAuthNodes, hfc2, hpa, hbp, hra, hb, hs]
      · have hpa2 : args.parentNode.auth = false := by simpa using hpa
        refine ⟨[], ?_⟩
        simp [postAuthResult, postAuthNodes, hfc2, hpa2, hra, hb, hs]
  have hne : ((postAuthResult hooks args relatedNode).1).isEmpty = false := by
    rcases hpost with ⟨pre, hp2⟩
    simp [hp2]
  rw [createSubqueryContents, if_neg (by simp [hskip])]
  refine ⟨[Clause.optionalMatch
      (if args.labelOverride ≠ "" then ":" ++ args.labelOverride else relatedNode.labelString)
      args.withVars (matchWheres hooks args relatedNode connect)]
      ++ (if subs then [Clause.metaInit] else [])
      ++ [Clause.withCollectNodes]
      ++ (if subs then [Clause.metaInit] else [])
      ++ [Clause.unwindNodes],
    (if args.relHasProperties then [Clause.setRelProps connect.edge] else [])
      ++ (if subs then
            [Clause.eventMetaWith (eventFromToVars args).1 (eventFromToVars args).2 args.relType,
             Clause.innerReturnMeta]
          else [Clause.innerReturnCount])
      ++ (if subs then [Clause.metaConcatWith, Clause.outerReturnMeta]
          else [Clause.outerReturnCount])
      ++ (if args.includeRelationshipValidation
            && !(relValidationStrs hooks args relatedNode).isEmpty then
            [Clause.withCarry (args.withVars ++ [args.varName]) subs,
             Clause.relValidation (relValidationStrs hooks args relatedNode)]
          else [])
      ++ [Clause.withCarry (args.withVars ++ [args.varName]) subs]
      ++ (if !((postAuthResult hooks args relatedNode).1).isEmpty then
            [Clause.withVarsC (args.withVars ++ [args.varName]),
             Clause.validatePost (postAuthResult hooks args relatedNode).1 AUTH_FORBIDDEN_ERROR]
          else [])
      ++ (if subs then [Clause.collectMetaReturn]
          else [Clause.returnCount ("connect_" ++ args.varName ++ "_" ++ relatedNode.name)]),
    ?_, ?_⟩
  · simp [List.append_assoc]
  · refine ⟨(postAuthResult hooks args relatedNode).1, ?_, ?_⟩
    · simp [hne]
    · rcases hpost with ⟨pre, hp2⟩
      simp [hp2]

/-- Witness for C7 at a concrete input: the compiled Actor connect carries
the `bind_Actor` predicate inside a validate call placed after the write
clause. -/
theorem connect_bind_validation_embedded_witness :
    ∃ l1 l2, (createSubqueryContents false hooksW argsW actorNode connectMergeW).1
        = l1 ++ [mergeOrCreateClause argsW connectMergeW] ++ l2
      ∧ ∃ conds, Clause.validatePost conds AUTH_FORBIDDEN_ERROR ∈ l2 ∧ "bind_Actor" ∈ conds :=
  connect_bind_validation_embedded false hooksW argsW actorNode connectMergeW
    "bind_Actor" [("Actor_bind0", JSValue.strV "sub")]
    rfl rfl (by decide) (by decide)

/-! ## C8 — the subscription side-channel does not change the data effect -/

theorem dataEffect_append (a b : List Clause) :
    dataEffect (a ++ b) = dataEffect a ++ dataEffect b := by
  simp [dataEffect]

theorem dataEffect_flatten (l : List (List Clause)) :
    dataEffect l.flatten = (l.map dataEffect).flatten := by
  induction l with
  | nil => rfl
  | cons a rest ih => simp [dataEffect_append, ih]

theorem subquery_isEmpty (subs : Bool) (hooks : AuthHooks) (args : ConnectArgs)
    (relatedNode : GQLNode) (connect : ConnectInput) :
    ((createSubqueryContents subs hooks args relatedNode connect).1).isEmpty
      = skipOnCheck connect relatedNode := by
  by_cases hskip : skipOnCheck connect relatedNode = true
  · simp [createSubqueryContents, hskip]
  · have hskip2 : skipOnCheck connect relatedNode = false := by simpa using hskip
    rw [createSubqueryContents, if_neg (by simp [hskip2]), hskip2]
    simp

theorem subquery_dataEffect_parity (hooks : AuthHooks) (args : ConnectArgs)
    (relatedNode : GQLNode) (connect : ConnectInput) :
    dataEffect (createSubqueryContents true hooks args relatedNode connect).1
      = dataEffect (createSubqueryContents false hooks args relatedNode connect).1
    ∧ (createSubqueryContents true hooks args relatedNode connect).2
      = (createSubqueryContents false hooks args relatedNode connect).2 := by
  by_cases hskip : skipOnCheck connect relatedNode = true
  · simp [createSubqueryContents, hskip]
  · have hskip2 : skipOnCheck connect relatedNode = false := by simpa using hskip
    simp only [createSubqueryContents, hskip2, Bool.false_eq_true, if_false]
    constructor
    · simp [dataEffect, dataOpsOf, apply_ite (List.map dataOpsOf), apply_ite List.flatten]
    · trivial

theorem interfaceFold_parity (hooks : AuthHooks) (args : ConnectArgs) (connect : ConnectInput)
    (nodes : List GQLNode) (accT accF : List (List Clause) × JSObj)
    (h1 : accT.1.map dataEffect = accF.1.map dataEffect)
    (h2 : accT.2 = accF.2) :
    ((nodes.foldl (fun acc refNode =>
        let sub := createSubqueryContents true hooks args refNode connect
        if sub.1.isEmpty then acc else (acc.1 ++ [sub.1], objSpread acc.2 sub.2)) accT).1.map
          dataEffect
      = (nodes.foldl (fun acc refNode =>
          let sub := createSubqueryContents false hooks args refNode connect
          if sub.1.isEmpty then acc else (acc.1 ++ [sub.1], objSpread acc.2 sub.2)) accF).1.map
            dataEffect)
    ∧ (nodes.foldl (fun acc refNode =>
        let sub := createSubqueryContents true hooks args refNode connect
        if sub.1.isEmpty then acc else (acc.1 ++ [sub.1], objSpread acc.2 sub.2)) accT).2
      = (nodes.foldl (fun acc refNode =>
          let sub := createSubqueryContents false hooks args refNode connect
          if sub.1.isEmpty then acc else (acc.1 ++ [sub.1], objSpread acc.2 sub.2)) accF).2 := by
  induction nodes generalizing accT accF with
  | nil => exact ⟨h1, h2⟩
  | cons n rest ih =>
    rcases subquery_dataEffect_parity hooks args n connect with ⟨hd, hp⟩
    simp only [List.foldl_cons]
    by_cases he : ((createSubqueryContents false hooks args n connect).1).isEmpty = true
    · have heT : ((createSubqueryContents true hooks args n connect).1).isEmpty = true := by
        rw [subquery_isEmpty] at he ⊢
        exact he
      simp only [heT, he, if_true]
      exact ih accT accF h1 h2
    · have heF : ((createSubqueryContents false hooks args n connect).1).isEmpty = false := by
        simpa using he
      have heT : ((createSubqueryContents true hooks args n connect).1).isEmpty = false := by
        rw [subquery_isEmpty] at heF ⊢
        exact heF
      simp only [heT, heF, Bool.false_eq_true, if_false]
      refine ih _ _ ?_ ?_
      · simp [h1, hd]
      · simp [h2, hp]

theorem dataEffect_joinCallSeparated (subs : Bool) (l : List (List Clause)) :
    dataEffect (joinCallSeparated subs l) = (l.map dataEffect).flatten := by
  induction l with
  | nil => rfl
  | cons s rest ih =>
    cases rest with
    | nil => simp [joinCallSeparated]
    | cons t rest2 =>
      have hstep : joinCallSeparated subs (s :: t :: rest2)
          = s ++ [Clause.callClose] ++ (if subs then [Clause.metaCarry] else [])
            ++ [Clause.callOpen] ++ joinCallSeparated subs (t :: rest2) := rfl
      rw [hstep]
      simp only [dataEffect_append, ih, List.map_cons, List.flatten_cons]
      simp [dataEffect, dataOpsOf, apply_ite (List.map dataOpsOf), apply_ite List.flatten]

theorem map_dataEffect_eq_isEmpty (l1 l2 : List (List Clause))
    (h : l1.map dataEffect = l2.map dataEffect) : l1.isEmpty = l2.isEmpty := by
  cases l1 <;> cases l2 <;> simp_all

theorem entryBlock_parity (hooks : AuthHooks) (args : ConnectArgs) (connect : ConnectInput) :
    dataEffect (entryBlock true hooks args connect).1
      = dataEffect (entryBlock false hooks args connect).1
    ∧ (entryBlock true hooks args connect).2 = (entryBlock false hooks args connect).2 := by
  have hif := interfaceFold_parity hooks args connect args.refNodes ([], []) ([], []) rfl rfl
  have hifs1 : (interfaceSubqueries true hooks args connect).1.map dataEffect
      = (interfaceSubqueries false hooks args connect).1.map dataEffect := by
    rw [interfaceSubqueries, interfaceSubqueries]
    exact hif.1
  have hifs2 : (interfaceSubqueries true hooks args connect).2
      = (interfaceSubqueries false hooks args connect).2 := by
    rw [interfaceSubqueries, interfaceSubqueries]
    exact hif.2
  have hinner1 : dataEffect (entryInner true hooks args connect).1
      = dataEffect (entryInner false hooks args connect).1 := by
    rw [entryInner, entryInner]
    by_cases hI : args.relIsInterface = true
    · simp only [hI, if_true]
      rw [dataEffect_joinCallSeparated, dataEffect_joinCallSeparated, hifs1]
    · have hI2 : args.relIsInterface = false := by simpa using hI
      simp only [hI2, Bool.false_eq_true, if_false]
      cases h : args.refNodes with
      | nil => rfl
      | cons r rs => exact (subquery_dataEffect_parity hooks args r connect).1
  have hinner2 : (entryInner true hooks args connect).2
      = (entryInner false hooks args connect).2 := by
    rw [entryInner, entryInner]
    by_cases hI : args.relIsInterface = true
    · simp only [hI, if_true]
      exact hifs2
    · have hI2 : args.relIsInterface = false := by simpa using hI
      simp only [hI2, Bool.false_eq_true, if_false]
      cases h : args.refNodes with
      | nil => rfl
      | cons r rs => exact (subquery_dataEffect_parity hooks args r connect).2
  have hpresent : entryInnerPresent true hooks args connect
      = entryInnerPresent false hooks args connect := by
    rw [entryInnerPresent, entryInnerPresent]
    by_cases hI : args.relIsInterface = true
    · simp only [hI, if_true]
      rw [map_dataEffect_eq_isEmpty _ _ hifs1]
    · have hI2 : args.relIsInterface = false := by simpa using hI
      simp [hI2]
  have hinner1u : (List.map dataOpsOf (entryInner true hooks args connect).1).flatten
      = (List.map dataOpsOf (entryInner false hooks args connect).1).flatten := by
    simpa [dataEffect] using hinner1
  constructor
  · rw [entryBlock, entryBlock]
    by_cases hp : entryInnerPresent false hooks args connect = true
    · have hpT : entryInnerPresent true hooks args connect = true := hpresent.trans hp
      simp [hpT, hp, dataEffect_append, dataEffect, dataOpsOf, hinner1u]
    · have hpF : entryInnerPresent false hooks args connect = false := by simpa using hp
      have hpT : entryInnerPresent true hooks args connect = false := hpresent.trans hpF
      simp [hpT, hpF, dataEffect_append]
  · rw [entryBlock, entryBlock]
    simp [hinner2]

/-- C8: compiling with the subscription event side-channel enabled versus
disabled yields the same primary data effect — the same optional-match
(label, carry-over, predicates), the same merge/create relationship
writes, the same property sets, filters and validations, in the same
order — and the same parameter map; only the event-metadata threading
differs. -/
theorem subscriptions_frame_property (hooks : AuthHooks) (args : ConnectArgs)
    (entries : List ConnectInput) :
    dataEffect (createConnectAndParams true hooks args entries).1
      = dataEffect (createConnectAndParams false hooks args entries).1
    ∧ (createConnectAndParams true hooks args entries).2
      = (createConnectAndParams false hooks args entries).2 := by
  have hfun1 : (fun c => dataEffect (entryBlock true hooks args c).1)
      = (fun c => dataEffect (entryBlock false hooks args c).1) := by
    funext c
    exact (entryBlock_parity hooks args c).1
  have hfun2 : (fun p c => objSpread p (entryBlock true hooks args c).2)
      = (fun p c => objSpread p (entryBlock false hooks args c).2) := by
    funext p c
    rw [(entryBlock_parity hooks args c).2]
  rw [createConnectAndParams, createConnectAndParams,
    foldl_reducer_eq true hooks args entries ([], []),
    foldl_reducer_eq false hooks args entries ([], [])]
  constructor
  · simp only [List.nil_append, dataEffect_flatten, List.map_map, Function.comp_def]
    rw [show (fun c => dataEffect (entryBlock true hooks args c).1)
        = (fun c => dataEffect (entryBlock false hooks args c).1) from hfun1]
  · simp only []
    rw [hfun2]

/-! ## C9 — `_on` overrides of root-level where keys -/

theorem hasOwn_eq_false_iff (o : JSObj) (k : String) :
    hasOwn o k = false ↔ k ∉ o.map Prod.fst := by
  induction o with
  | nil => simp [hasOwn]
  | cons kv rest ih =>
    by_cases h : kv.1 = k
    · simp [hasOwn, h]
    · simp [hasOwn, h, ih, Ne.symm h]

theorem jsGet_append_of_not_mem (a b : JSObj) (k : String) (h : k ∉ a.map Prod.fst) :
    jsGet (a ++ b) k = jsGet b k := by
  induction a with
  | nil => rfl
  | cons kv rest ih =>
    simp only [List.map_cons, List.mem_cons, not_or] at h
    have h1 : kv.1 ≠ k := fun hh => h.1 hh.symm
    simp only [List.cons_append, jsGet, if_neg h1]
    exact ih h.2

theorem objSet_of_hasOwn_false (o : JSObj) (k : String) (v : JSValue)
    (h : hasOwn o k = false) : objSet o k v = o ++ [(k, v)] := by
  induction o with
  | nil => rfl
  | cons kv rest ih =>
    by_cases hk : kv.1 = k
    · simp [hasOwn, hk] at h
    · simp only [hasOwn, if_neg hk] at h
      simp [objSet, hk, ih h]

theorem jsGet_objSet_self (o : JSObj) (k : String) (v : JSValue) :
    jsGet (objSet o k v) k = v := by
  induction o with
  | nil => simp [objSet, jsGet]
  | cons kv rest ih =>
    by_cases hk : kv.1 = k
    · simp [objSet, hk, jsGet]
    · simp [objSet, hk, jsGet, ih]

theorem jsGet_objSet_ne (o : JSObj) (k1 k : String) (v : JSValue) (h : k1 ≠ k) :
    jsGet (objSet o k1 v) k = jsGet o k := by
  induction o with
  | nil => simp [objSet, jsGet, h]
  | cons kv rest ih =>
    by_cases hk : kv.1 = k1
    · simp [objSet, hk, jsGet, h]
    · simp only [objSet, if_neg hk]
      by_cases hk2 : kv.1 = k
      · simp [jsGet, hk2]
      · simp [jsGet, hk2, ih]

theorem truthy_ne_undef (v : JSValue) (h : truthy v = true) : v ≠ JSValue.undef := by
  cases v <;> simp_all [truthy]

theorem hasOwn_of_jsGet_ne_undef (o : JSObj) (k : String) (h : jsGet o k ≠ JSValue.undef) :
    hasOwn o k = true := by
  induction o with
  | nil => simp [jsGet] at h
  | cons kv rest ih =>
    by_cases hk : kv.1 = k
    · simp [hasOwn, hk]
    · simp only [jsGet, if_neg hk] at h
      simp [hasOwn, hk, ih h]

theorem jsGet_objSpread (o p : JSObj) (k : String) (hnd : (p.map Prod.fst).Nodup) :
    jsGet (objSpread o p) k = if hasOwn p k = true then jsGet p k else jsGet o k := by
  induction p generalizing o with
  | nil => simp [objSpread, hasOwn]
  | cons kv rest ih =>
    simp only [List.map_cons, List.nodup_cons] at hnd
    have hstep : objSpread o (kv :: rest) = objSpread (objSet o kv.1 kv.2) rest := rfl
    rw [hstep, ih _ hnd.2]
    by_cases hk : kv.1 = k
    · subst hk
      have hrest : hasOwn rest kv.1 = false := by
        rw [hasOwn_eq_false_iff]
        exact hnd.1
      simp [hrest, hasOwn, jsGet, jsGet_objSet_self]
    · simp only [hasOwn, if_neg hk, jsGet, jsGet_objSet_ne o kv.1 k kv.2 hk]

theorem hasOwn_filter_false (p : String × JSValue → Bool) (l : JSObj) (k : String)
    (h : ∀ v, p (k, v) = false) : hasOwn (l.filter p) k = false := by
  induction l with
  | nil => rfl
  | cons kv rest ih =>
    by_cases hp : p kv = true
    · simp only [List.filter_cons, hp, if_true]
      by_cases hk : kv.1 = k
      · have : p kv = false := by
          rw [show kv = (k, kv.2) by rw [← hk]]
          exact h kv.2
        rw [hp] at this
        exact absurd this (by simp)
      · simp [hasOwn, hk, ih]
    · have hp2 : p kv = false := by simpa using hp
      simp [List.filter_cons, hp2, ih]

theorem jsGet_filter_of_mem (p : String × JSValue → Bool) (l : JSObj) (k : String) (v : JSValue)
    (hnd : (l.map Prod.fst).Nodup) (hm : (k, v) ∈ l) (hp : p (k, v) = true) :
    jsGet (l.filter p) k = v := by
  induction l with
  | nil => simp at hm
  | cons kv rest ih =>
    simp only [List.map_cons, List.nodup_cons] at hnd
    rcases List.mem_cons.mp hm with heq | hmem
    · rw [← heq]
      simp [List.filter_cons, hp, jsGet]
    · have hk : kv.1 ≠ k := by
        intro hcontra
        exact hnd.1 (hcontra ▸ List.mem_map_of_mem Prod.fst hmem)
      by_cases hpkv : p kv = true
      · simp only [List.filter_cons, hpkv, if_true, jsGet, if_neg hk]
        exact ih hnd.2 hmem
      · have hp2 : p kv = false := by simpa using hpkv
        simp only [List.filter_cons, hp2, Bool.false_eq_true, if_false]
        exact ih hnd.2 hmem

theorem foldl_whereStep_eq (wn : JSObj) (relName : String) (l : JSObj) (acc : JSObj)
    (hnd : (l.map Prod.fst).Nodup)
    (hdisj : ∀ kv ∈ l, hasOwn acc kv.1 = false) :
    l.foldl (fun args kv =>
        if kv.1 = "_on" then args
        else if truthy (onImplValue wn relName kv.1) then args
        else objSet args kv.1 kv.2) acc
      = acc ++ l.filter (fun kv =>
          !(kv.1 == "_on") && !truthy (onImplValue wn relName kv.1)) := by
  induction l generalizing acc with
  | nil => simp
  | cons kv rest ih =>
    simp only [List.map_cons, List.nodup_cons] at hnd
    by_cases h1 : kv.1 = "_on"
    · have hdrop : (!(kv.1 == "_on") && !truthy (onImplValue wn relName kv.1)) = false := by
        simp [h1]
      simp only [List.foldl_cons, List.filter_cons, if_pos h1, hdrop, Bool.false_eq_true,
        if_false]
      exact ih acc hnd.2 (fun kv2 hm => hdisj kv2 (List.mem_cons_of_mem kv hm))
    · by_cases h2 : truthy (onImplValue wn relName kv.1) = true
      · have hdrop : (!(kv.1 == "_on") && !truthy (onImplValue wn relName kv.1)) = false := by
          simp [h2]
        simp only [List.foldl_cons, List.filter_cons, if_neg h1, if_pos h2, hdrop,
          Bool.false_eq_true, if_false]
        exact ih acc hnd.2 (fun kv2 hm => hdisj kv2 (List.mem_cons_of_mem kv hm))
      · have h2f : truthy (onImplValue wn relName kv.1) = false := by simpa using h2
        have hset : objSet acc kv.1 kv.2 = acc ++ [(kv.1, kv.2)] :=
          objSet_of_hasOwn_false acc kv.1 kv.2 (hdisj kv (List.mem_cons_self kv rest))
        have hkeep : (!(kv.1 == "_on") && !truthy (onImplValue wn relName kv.1)) = true := by
          simp [h1, h2f]
        simp only [List.foldl_cons, List.filter_cons, if_neg h1, if_neg h2, hset,
          if_pos hkeep]
        rw [ih (acc ++ [(kv.1, kv.2)]) hnd.2 ?_]
        · simp
        · intro kv2 hm
          rw [hasOwn_eq_false_iff]
          simp only [List.map_append, List.mem_append, not_or]
          constructor
          · rw [← hasOwn_eq_false_iff]
            exact hdisj kv2 (List.mem_cons_of_mem kv hm)
          · simp only [List.map_cons, List.map_nil, List.mem_singleton]
            intro hcontra
            exact hnd.1 (hcontra ▸ List.mem_map_of_mem Prod.fst hm)

theorem foldl_onTypeStep_eq (relName : String) (l : JSObj) (acc : JSObj)
    (hnd : (l.map Prod.fst).Nodup)
    (hdisj : ∀ kv ∈ l, hasOwn acc kv.1 = false)
    (hne : ∀ kv ∈ l, kv.1 ≠ "_on") :
    l.foldl (fun args kv =>
        if kv.1 ≠ "_on" then objSet args kv.1 kv.2
        else if hasOwn (asObj kv.2) relName then objSpread args (asObj (dot kv.2 relName))
        else args) acc
      = acc ++ l := by
  induction l generalizing acc with
  | nil => simp
  | cons kv rest ih =>
    simp only [List.map_cons, List.nodup_cons] at hnd
    have h1 : kv.1 ≠ "_on" := hne kv (List.mem_cons_self kv rest)
    have hset : objSet acc kv.1 kv.2 = acc ++ [(kv.1, kv.2)] :=
      objSet_of_hasOwn_false acc kv.1 kv.2 (hdisj kv (List.mem_cons_self kv rest))
    simp only [List.foldl_cons, if_pos h1, hset]
    rw [ih (acc ++ [(kv.1, kv.2)]) hnd.2 ?_ (fun kv2 hm => hne kv2 (List.mem_cons_of_mem kv hm))]
    · simp
    · intro kv2 hm
      rw [hasOwn_eq_false_iff]
      simp only [List.map_append, List.mem_append, not_or]
      constructor
      · rw [← hasOwn_eq_false_iff]
        exact hdisj kv2 (List.mem_cons_of_mem kv hm)
      · simp only [List.map_cons, List.map_nil, List.mem_singleton]
        intro hcontra
        exact hnd.1 (hcontra ▸ List.mem_map_of_mem Prod.fst hm)

/-- C9 counterexample: the claim as stated is false on the code. For the
where filter with root-level `age: 5` and `_on.Impl.age: 0` (the same key
at root level and inside `_on` for the implementation being compiled, the
`_on` value being the falsy 0), the emitted predicates for `Impl` contain
the root-level value 5 — the root-level value is NOT omitted, because the
skip check at part_000 line 105 tests JS truthiness of the `_on` value and
0 is falsy; the compiled match then filters on both `age = 5` and
`age = 0`. -/
theorem connect_on_override_counterexample :
    jsGet (rootWhereInput onOverrideWhereCex "Impl") "age" = JSValue.numV 5
    ∧ whereClausePreds
        { whereNode := some onOverrideWhereCex, edge := [], createAsDuplicate := false }
        { name := "Impl", auth := false, labelString := ":Impl" }
      = [Pred.whereInput [("age", JSValue.numV 5)],
         Pred.whereInput [("age", JSValue.numV 0)]] :=
  ⟨rfl, rfl⟩

/-- C9 amended: for an interface connect where filter carrying the same
key both at root level and in the `_on` entry for the implementation
being compiled, IF the `_on` value for that key is truthy and the root
keys precede the `_on` key, then the emitted predicate input for that
implementation omits the root-level entry for the key and maps it to the
`_on` value; root-level keys whose `_on` value is not truthy are still
emitted with their root-level values. -/
theorem connect_on_override_amended
    (root onObj impl : JSObj) (relName k : String) (vroot von : JSValue)
    (hndroot : (root.map Prod.fst).Nodup)
    (hnoon : "_on" ∉ root.map Prod.fst)
    (hndimpl : (impl.map Prod.fst).Nodup)
    (hkroot : (k, vroot) ∈ root)
    (himpl : jsGet onObj relName = JSValue.obj impl)
    (hvon : jsGet impl k = von)
    (htruthy : truthy von = true) :
    hasOwn (rootWhereInput (root ++ [("_on", JSValue.obj onObj)]) relName) k = false
    ∧ jsGet (onTypeWhereInput (root ++ [("_on", JSValue.obj onObj)]) relName) k = von
    ∧ ∀ k2 v2, (k2, v2) ∈ root →
        truthy (onImplValue (root ++ [("_on", JSValue.obj onObj)]) relName k2) = false →
        jsGet (rootWhereInput (root ++ [("_on", JSValue.obj onObj)]) relName) k2 = v2 := by
  have hon : jsGet (root ++ [("_on", JSValue.obj onObj)]) "_on" = JSValue.obj onObj := by
    rw [jsGet_append_of_not_mem _ _ _ hnoon]
    simp [jsGet]
  have honimpl : ∀ k0, onImplValue (root ++ [("_on", JSValue.obj onObj)]) relName k0
      = jsGet impl k0 := by
    intro k0
    rw [onImplValue, hon]
    simp [dot, asObj, himpl]
  have hroot_eq : rootWhereInput (root ++ [("_on", JSValue.obj onObj)]) relName
      = root.filter (fun kv => !(kv.1 == "_on")
          && !truthy (onImplValue (root ++ [("_on", JSValue.obj onObj)]) relName kv.1)) := by
    rw [rootWhereInput, List.foldl_append]
    simp only [List.foldl_cons, List.foldl_nil, if_true]
    simpa using foldl_whereStep_eq (root ++ [("_on", JSValue.obj onObj)]) relName root []
      hndroot (fun kv _ => rfl)
  refine ⟨?_, ?_, ?_⟩
  · rw [hroot_eq]
    apply hasOwn_filter_false
    intro v
    simp [honimpl, hvon, htruthy]
  · have hown : hasOwn (asObj (JSValue.obj onObj)) relName = true := by
      apply hasOwn_of_jsGet_ne_undef
      rw [show asObj (JSValue.obj onObj) = onObj from rfl, himpl]
      simp
    have honType_eq : onTypeWhereInput (root ++ [("_on", JSValue.obj onObj)]) relName
        = objSpread root impl := by
      rw [onTypeWhereInput, List.foldl_append]
      rw [foldl_onTypeStep_eq relName root [] hndroot (fun kv _ => rfl)
        (fun kv hm hc => hnoon (hc ▸ List.mem_map_of_mem Prod.fst hm))]
      simp only [List.nil_append, List.foldl_cons, List.foldl_nil]
      rw [if_neg (by simp), if_pos hown]
      have hd : asObj (dot (JSValue.obj onObj) relName) = impl := by
        simp [dot, asObj, himpl]
      rw [hd]
    rw [honType_eq, jsGet_objSpread root impl k hndimpl]
    have himplk : hasOwn impl k = true :=
      hasOwn_of_jsGet_ne_undef impl k (by rw [hvon]; exact truthy_ne_undef von htruthy)
    rw [if_pos himplk, hvon]
  · intro k2 v2 hm hfalsy
    rw [hroot_eq]
    apply jsGet_filter_of_mem _ root k2 v2 hndroot hm
    have hk2 : k2 ≠ "_on" := fun hc => hnoon (hc ▸ List.mem_map_of_mem Prod.fst hm)
    simp [hk2, hfalsy]

/-- Witness for the amended C9 at a concrete input: root keys `name` and
`age`, with `age` overridden by the truthy 7 in `_on.Impl` — the root
`age` is omitted, the `_on` value 7 is used, and `name` is still emitted. -/
theorem connect_on_override_amended_witness :
    hasOwn (rootWhereInput onOverrideWhereW "Impl") "age" = false
    ∧ jsGet (onTypeWhereInput onOverrideWhereW "Impl") "age" = JSValue.numV 7
    ∧ ∀ k2 v2, (k2, v2) ∈ [(("name" : String), JSValue.strV "x"), ("age", JSValue.numV 5)] →
        truthy (onImplValue onOverrideWhereW "Impl" k2) = false →
        jsGet (rootWhereInput onOverrideWhereW "Impl") k2 = v2 :=
  connect_on_override_amended
    [("name", JSValue.strV "x"), ("age", JSValue.numV 5)]
    [("Impl", JSValue.obj [("age", JSValue.numV 7)])]
    [("age", JSValue.numV 7)]
    "Impl" "age" (JSValue.numV 5) (JSValue.numV 7)
    (by decide) (by decide) (by decide) (by simp) rfl rfl (by decide)

end NeoGQL
